import Mathlib

/-!
Verification of the rt_wifi_scanner program (src/main.c).

The program is a two-thread producer/consumer: a periodic producer
(READ_TASK) runs an external scan command and enqueues (SSID, timestamp)
pairs into a fixed 32-slot circular buffer, and a consumer (STORE_TASK)
dequeues pairs and folds them into a per-SSID history of timestamps and
latencies.  This file gives a shallow embedding of the sequential core:
the circular queue (queueAdd / queuePop), the production cycle (readSSID),
the aggregation step (storeSSIDs), the timer update (updateInterval) and
the entry-point configuration (INIT_TASK and the setup order of main).

Modelling conventions:
* `f32_t` timestamps are modelled as exact rationals (no claim here
  depends on floating-point rounding).
* `u32_t` / `u64_t` indices and counters are modelled as `Nat`; the only
  place where wrap-around matters for a claim is noted locally.
* SSID character buffers are modelled as `String` (the C code never
  stores embedded NUL bytes; `fgets` lines are NUL-terminated text).
* External library calls (`popen`, `clock_gettime`, `strtoul`) are
  modelled as explicit parameters or, for `strtoul`, as a function
  written from its C-standard semantics.
-/

namespace RtWifiScanner

/-! ### Timers (struct timespec and updateInterval, main.c lines 175-185) -/

/-- Model of `struct timespec` as used by the task timers; the fields are
never negative in this program (the timer is read from a monotonic clock
and only ever incremented), so they are modelled as `Nat`. -/
structure Timespec where
  tv_sec : Nat
  tv_nsec : Nat
  deriving DecidableEq

/-- The number of nsecs per sec (macro NSEC_PER_SEC). -/
def NSEC_PER_SEC : Nat := 1000000000

/-- The `while (tv_nsec >= NSEC_PER_SEC) { tv_nsec -= NSEC_PER_SEC; tv_sec++; }`
normalization loop of `updateInterval`. -/
def normalizeTimer (sec nsec : Nat) : Nat × Nat :=
  if h : NSEC_PER_SEC ≤ nsec then
    normalizeTimer (sec + 1) (nsec - NSEC_PER_SEC)
  else
    (sec, nsec)
termination_by nsec
decreasing_by
  simp only [NSEC_PER_SEC] at h ⊢
  omega

/-- `updateInterval` (main.c lines 175-185): add the interval to the
nanosecond field, then run the normalization loop.  Fidelity notes for
the C arithmetic (LP64: `long`, `unsigned long` and `u64_t` are all 64
bits, the same convention as the `strtoul` model below):
* `tv_nsec += interval` adds a signed `long` and a `u64_t`: the usual
  arithmetic conversions turn both operands into unsigned 64-bit
  values, the sum wraps modulo 2^64, and the result is converted back
  into the `long` (GCC/Clang: the congruent value).  The field is
  therefore modelled by the unsigned 64-bit reading of the stored bit
  pattern, and the addition carries an explicit `% 2 ^ 64`.
* `NSEC_PER_SEC` is the unsigned literal `1000000000ul`, so the loop
  condition `tv_nsec >= NSEC_PER_SEC` and the body step
  `tv_nsec -= NSEC_PER_SEC` likewise convert `tv_nsec` to unsigned
  64-bit: a pattern that is negative as a signed `long` compares as a
  value far above `NSEC_PER_SEC`, so the loop does run on it, and the
  loop always terminates with the field in [0, NSEC_PER_SEC).
  `normalizeTimer` above is exactly this unsigned loop.
* `tv_sec++` stays in signed arithmetic; its overflow (undefined
  behaviour, needing a total time beyond 2^63 seconds) is the one
  corner not modelled. -/
def updateInterval (task_timer : Timespec) (interval : Nat) : Timespec :=
  let p := normalizeTimer task_timer.tv_sec
    ((task_timer.tv_nsec + interval) % 2 ^ 64)
  ⟨p.1, p.2⟩

/-! ### The SSID queue (struct SSIDQueue, queueAdd, queuePop) -/

/-- The size of the SSID buffer (macro BUFFER_SIZE). -/
def BUFFER_SIZE : Nat := 32

/-- Model of `struct SSIDQueue` (main.c lines 52-62).  The two arrays are
modelled as total functions from index to content; only indices below
`BUFFER_SIZE` are ever read or written.  The pthread mutex and condition
variables are synchronization devices with no sequential content and are
not part of the state model. -/
structure SSIDQueue where
  ssid_buffer : Nat → String
  timestamp_buffer : Nat → ℚ
  head : Nat
  tail : Nat
  full : Bool
  empty : Bool

/-- `queueAdd` (main.c lines 197-210): write at the tail, advance the tail
circularly, raise `full` when the tail catches the head, clear `empty`. -/
def queueAdd (ssid : String) (timestamp : ℚ) (q : SSIDQueue) : SSIDQueue :=
  let sb := Function.update q.ssid_buffer q.tail ssid
  let tb := Function.update q.timestamp_buffer q.tail timestamp
  let t1 := q.tail + 1
  let t2 := if t1 = BUFFER_SIZE then 0 else t1
  { ssid_buffer := sb
    timestamp_buffer := tb
    head := q.head
    tail := t2
    full := if t2 = q.head then true else q.full
    empty := false }

/-- `queuePop` (main.c lines 212-225): read at the head, advance the head
circularly, raise `empty` when the head catches the tail, clear `full`.
Returns the popped (ssid, timestamp) pair together with the new state. -/
def queuePop (q : SSIDQueue) : (String × ℚ) × SSIDQueue :=
  let ssid := q.ssid_buffer q.head
  let ts := q.timestamp_buffer q.head
  let h1 := q.head + 1
  let h2 := if h1 = BUFFER_SIZE then 0 else h1
  ((ssid, ts),
   { q with
      head := h2
      empty := if h2 = q.tail then true else q.empty
      full := false })

/-- The queue state established by `INIT_TASK` (main.c lines 338-341):
head = tail = 0, empty raised, full cleared.  The array contents are
unspecified in C; zero-initialized static storage gives empty strings
and zero timestamps. -/
def initQueue : SSIDQueue :=
  { ssid_buffer := fun _ => ""
    timestamp_buffer := fun _ => 0
    head := 0
    tail := 0
    full := false
    empty := true }

/-! ### The production cycle (readSSID, main.c lines 227-245) -/

/-- The sentinel test of main.c line 237: `strncmp(ssid, "x00", 3)` is
non-zero exactly when the line does not begin with the three characters
`x00`.  A line passing this test is a valid scan result. -/
def validLine (s : String) : Bool := !(s.data.take 3 == ['x', '0', '0'])

/-- The `while (fgets(...))` loop body of `readSSID`: each scanner line is
enqueued (with the timestamp the clock returns at that enqueue) when the
queue is not full and the line is not the `x00` sentinel; otherwise the
line is dropped and reading continues.  Each element of `lines` pairs a
scanner line with the value `getCurrentTimestamp` would return for it. -/
def readSSIDLoop : List (String × ℚ) → SSIDQueue → SSIDQueue
  | [], q => q
  | (s, t) :: rest, q =>
    if !q.full && validLine s then
      readSSIDLoop rest (queueAdd s t q)
    else
      readSSIDLoop rest q

/-- `readSSID` (main.c lines 227-245).  The `popen` result is modelled as
an `Option`: `none` when the scanner subprocess could not be started
(`popen` returned NULL), in which case the function does nothing. -/
def readSSID (scan : Option (List (String × ℚ))) (q : SSIDQueue) : SSIDQueue :=
  match scan with
  | none => q
  | some lines => readSSIDLoop lines q

/-! ### The aggregation step (storeSSIDs, main.c lines 247-295) -/

/-- One entry of the identifier history: the parallel arrays
`ssids[i]`, `timestamps[i]` (length `num_timestamps[i]`) and
`latencies[i]` of main.c lines 73-77, gathered per index `i`. -/
structure SSIDEntry where
  ssid : String
  timestamps : List ℚ
  latencies : List ℚ
  deriving DecidableEq

/-- The append branch of `storeSSIDs` (main.c lines 263-269): grow both
arrays of entry `i` by one, recording the new timestamp and the latency
`getCurrentTimestamp() - timestamp`. -/
def appendEntry (e : SSIDEntry) (timestamp now : ℚ) : SSIDEntry :=
  { e with
      timestamps := e.timestamps ++ [timestamp]
      latencies := e.latencies ++ [now - timestamp] }

/-- The new-entry branch of `storeSSIDs` (main.c lines 276-294): a fresh
entry with a single timestamp and a single latency. -/
def newEntry (ssid : String) (timestamp now : ℚ) : SSIDEntry :=
  { ssid := ssid, timestamps := [timestamp], latencies := [now - timestamp] }

/-- The linear scan of `storeSSIDs` (main.c lines 258-274): find the first
entry whose ssid equals the dequeued one AND whose most recent timestamp
(`timestamps[i][num_timestamps[i] - 1]`, i.e. the last element) differs
from the new timestamp; append there and stop (`break`).  Entries failing
either half of the conjunction are passed over.  Returns `none` when no
entry satisfied the conjunction (`ssid_found` stayed 0). -/
def storeScan : List SSIDEntry → String → ℚ → ℚ → Option (List SSIDEntry)
  | [], _, _, _ => none
  | e :: rest, ssid, timestamp, now =>
    if e.ssid = ssid ∧ e.timestamps.getLast? ≠ some timestamp then
      some (appendEntry e timestamp now :: rest)
    else
      match storeScan rest ssid timestamp now with
      | some rest2 => some (e :: rest2)
      | none => none

/-- `storeSSIDs` (main.c lines 247-295) applied to one dequeued
(ssid, timestamp) pair, with `now` the value `getCurrentTimestamp`
returns during this call: scan the history; when the scan found no
entry (`!ssid_found`), append a brand-new entry at the end. -/
def storeSSIDs (hist : List SSIDEntry) (ssid : String) (timestamp now : ℚ) :
    List SSIDEntry :=
  match storeScan hist ssid timestamp now with
  | some hist2 => hist2
  | none => hist ++ [newEntry ssid timestamp now]

/-! ### Entry point configuration (INIT_TASK, main) -/

/-- The whitespace test of `isspace` in the C locale, used by `strtoul`
before any conversion. -/
def isSpaceC (c : Char) : Bool :=
  c = ' ' || c = '\t' || c = '\n' || c = '\r' || c = '\x0b' || c = '\x0c'

/-- The numeric value of a character as a digit, when it is one. -/
def digitValue (c : Char) : Option Nat :=
  if '0' ≤ c ∧ c ≤ '9' then some (c.toNat - '0'.toNat)
  else if 'a' ≤ c ∧ c ≤ 'f' then some (c.toNat - 'a'.toNat + 10)
  else if 'A' ≤ c ∧ c ≤ 'F' then some (c.toNat - 'A'.toNat + 10)
  else none

/-- Accumulate the longest prefix of digits valid in the given base
(the conversion loop of `strtoul`). -/
def takeDigits (base : Nat) : List Char → Nat → Nat
  | [], acc => acc
  | c :: cs, acc =>
    match digitValue c with
    | some v => if v < base then takeDigits base cs (acc * base + v) else acc
    | none => acc

/-- ULONG_MAX for a 64-bit unsigned long. -/
def ULONG_MAX : Nat := 2 ^ 64 - 1

/-- Model of the C library function `strtoul(s, NULL, 0)`, written from
its C-standard semantics (the call site is main.c line 336): skip
whitespace, accept an optional sign, determine the base from a `0x`/`0`
prefix, convert the longest valid digit string (an empty digit string
converts to 0), clamp to ULONG_MAX on range overflow, and negate modulo
2^64 when the sign was minus.  `unsigned long` is taken as 64 bits. -/
def strtoul0 (s : String) : Nat :=
  let cs0 := s.data.dropWhile isSpaceC
  let signed : Bool × List Char :=
    match cs0 with
    | '-' :: rest => (true, rest)
    | '+' :: rest => (false, rest)
    | _ => (false, cs0)
  let based : Nat × List Char :=
    match signed.2 with
    | '0' :: 'x' :: rest =>
      if (rest.head?.bind digitValue).any (fun v => v < 16) then (16, rest)
      else (8, signed.2)
    | '0' :: 'X' :: rest =>
      if (rest.head?.bind digitValue).any (fun v => v < 16) then (16, rest)
      else (8, signed.2)
    | '0' :: _ => (8, signed.2)
    | _ => (10, signed.2)
  let v := takeDigits based.1 based.2 0
  let v := if ULONG_MAX < v then ULONG_MAX else v
  if signed.1 then (2 ^ 64 - v % 2 ^ 64) % 2 ^ 64 else v

/-- `INIT_TASK` (main.c lines 328-345).  `argc` counts the program name,
so exactly one program argument means `argc = 2`; any other count is a
fatal configuration error `exit(-4)`.  Otherwise the producer cycle time
is `strtoul(argv[1], NULL, 0) * NSEC_PER_SEC` (a `u64_t`, hence the
reduction modulo 2^64) and the queue is initialized. -/
def INIT_TASK (argc : Nat) (argv : List String) :
    Except Int (Nat × SSIDQueue) :=
  if argc ≠ 2 then
    Except.error (-4)
  else
    Except.ok ((strtoul0 (argv.getD 1 "") * NSEC_PER_SEC) % 2 ^ 64, initQueue)

/-- The observable setup steps of `main` (main.c lines 403-470), in
program order: the `mlockall` call, the stack prefault, the
`sched_setaffinity` call, and the argument-count check inside
`INIT_TASK`. -/
inductive MainEvent where
  | mlock
  | prefaultTheStack
  | setAffinity
  | argCheck
  deriving DecidableEq

/-- The setup sequence of `main` (main.c lines 403-436): lock memory
(exit(-2) on failure), prefault the stack, pin the CPU affinity
(exit(-3) on failure), then run `INIT_TASK` (exit(-4) on a wrong
argument count).  `mlockOk` and `affOk` say whether the two system calls
succeed.  The result is the ordered list of setup steps performed and
the exit code, `none` meaning the process goes on to run its two
threads forever. -/
def mainRun (mlockOk affOk : Bool) (argc : Nat) (argv : List String) :
    List MainEvent × Option Int :=
  if !mlockOk then
    ([MainEvent.mlock], some (-2))
  else if !affOk then
    ([MainEvent.mlock, MainEvent.prefaultTheStack, MainEvent.setAffinity],
     some (-3))
  else
    match INIT_TASK argc argv with
    | Except.error c =>
      ([MainEvent.mlock, MainEvent.prefaultTheStack, MainEvent.setAffinity,
        MainEvent.argCheck], some c)
    | Except.ok _ =>
      ([MainEvent.mlock, MainEvent.prefaultTheStack, MainEvent.setAffinity,
        MainEvent.argCheck], none)

/-! ### Timer lemmas -/

/-- The normalization loop preserves the total time and leaves the
nanosecond field strictly below one second. -/
lemma normalizeTimer_total (sec nsec : Nat) :
    (normalizeTimer sec nsec).1 * NSEC_PER_SEC + (normalizeTimer sec nsec).2
      = sec * NSEC_PER_SEC + nsec ∧
    (normalizeTimer sec nsec).2 < NSEC_PER_SEC := by
  induction nsec using Nat.strong_induction_on generalizing sec with
  | _ n ih =>
    unfold normalizeTimer
    split
    · next h =>
      have hlt : n - NSEC_PER_SEC < n := by
        simp only [NSEC_PER_SEC] at h ⊢; omega
      have := ih (n - NSEC_PER_SEC) hlt (sec + 1)
      refine ⟨?_, this.2⟩
      rw [this.1]
      simp only [NSEC_PER_SEC] at h ⊢
      omega
    · next h =>
      exact ⟨rfl, by omega⟩

/-- When the nanosecond field is already normalized, the loop does not run. -/
lemma normalizeTimer_of_lt (sec nsec : Nat) (h : nsec < NSEC_PER_SEC) :
    normalizeTimer sec nsec = (sec, nsec) := by
  unfold normalizeTimer
  simp [Nat.not_le.mpr h]

/-- Claim C7 (counterexample): the interval 2^64 - 512 is a reachable
producer cycle time — `INIT_TASK` computes exactly this `u64_t` value
from the argument "15817289833210771" — and at the normalized timer
(0 s, 999999999 ns) the 64-bit wrap of `tv_nsec += interval` makes the
update advance the total time by `interval - 2^64`, not by the
interval: the claim's exact-advance property fails there (the result is
(0 s, 999999487 ns)). -/
theorem updateInterval_wrap_counterexample :
    (999999999 : Nat) < NSEC_PER_SEC ∧
    strtoul0 "15817289833210771" * NSEC_PER_SEC % 2 ^ 64 = 2 ^ 64 - 512 ∧
    updateInterval ⟨0, 999999999⟩ (2 ^ 64 - 512) = ⟨0, 999999487⟩ ∧
    ¬ ((updateInterval ⟨0, 999999999⟩ (2 ^ 64 - 512)).tv_sec * NSEC_PER_SEC
          + (updateInterval ⟨0, 999999999⟩ (2 ^ 64 - 512)).tv_nsec
        = (0 : Nat) * NSEC_PER_SEC + 999999999 + (2 ^ 64 - 512)) := by
  have e1 : (999999999 + (2 ^ 64 - 512)) % 2 ^ 64 = 999999487 := by decide
  have e2 : updateInterval ⟨0, 999999999⟩ (2 ^ 64 - 512) = ⟨0, 999999487⟩ := by
    simp [updateInterval, e1,
      normalizeTimer_of_lt 0 999999487 (by decide)]
  refine ⟨by decide, by decide, e2, ?_⟩
  rw [e2]
  decide

/-- Claim C7 (amended): for every timer whose nanosecond field is in
[0, 10^9), `updateInterval` always leaves the nanosecond field in
[0, 10^9) again (the normalization loop runs in unsigned 64-bit
arithmetic), and whenever the 64-bit nanosecond accumulation
`tv_nsec + interval` does not wrap modulo 2^64 — in particular for
every realistic period — it advances the timer's total time by exactly
the interval. -/
theorem updateInterval_advances_no_wrap (t : Timespec) (interval : Nat)
    (h : t.tv_nsec < NSEC_PER_SEC) :
    (updateInterval t interval).tv_nsec < NSEC_PER_SEC ∧
    (t.tv_nsec + interval < 2 ^ 64 →
      (updateInterval t interval).tv_sec * NSEC_PER_SEC
          + (updateInterval t interval).tv_nsec
        = t.tv_sec * NSEC_PER_SEC + t.tv_nsec + interval) := by
  have h2 := normalizeTimer_total t.tv_sec ((t.tv_nsec + interval) % 2 ^ 64)
  simp only [updateInterval]
  refine ⟨h2.2, fun hlt => ?_⟩
  rw [h2.1, Nat.mod_eq_of_lt hlt]
  ring

/-- Witness for C7 (amended) at the timer (0 s, 999999999 ns) and
interval 1000000001 ns. -/
theorem updateInterval_advances_no_wrap_w :
    (Timespec.mk 0 999999999).tv_nsec < NSEC_PER_SEC ∧
    ((updateInterval ⟨0, 999999999⟩ 1000000001).tv_nsec < NSEC_PER_SEC ∧
     ((999999999 : Nat) + 1000000001 < 2 ^ 64 →
       (updateInterval ⟨0, 999999999⟩ 1000000001).tv_sec * NSEC_PER_SEC
           + (updateInterval ⟨0, 999999999⟩ 1000000001).tv_nsec
         = (0 : Nat) * NSEC_PER_SEC + 999999999 + 1000000001)) :=
  ⟨by decide,
   updateInterval_advances_no_wrap ⟨0, 999999999⟩ 1000000001 (by decide)⟩

/-! ### Scanner-failure and aggregation-step theorems -/

/-- Claim C9: when the scanner subprocess cannot be started (`popen`
returns NULL), the production cycle enqueues nothing and returns with
the queue state (contents, head, tail, full/empty flags) exactly as it
was before the cycle. -/
theorem readSSID_scanner_failure (q : SSIDQueue) : readSSID none q = q := rfl

/-- Claim C1 (code bug): dequeuing ("NetA", 10) when the history already
holds an entry for "NetA" whose most recent timestamp is 10 does NOT
leave the history unchanged: because the scan only stops at an entry
whose last timestamp differs, `ssid_found` stays 0 and `storeSSIDs`
appends a brand-new duplicate entry for "NetA". -/
theorem storeSSIDs_duplicate_on_equal_timestamp :
    storeSSIDs [⟨"NetA", [10], [1]⟩] "NetA" 10 11
      = [⟨"NetA", [10], [1]⟩, ⟨"NetA", [10], [1]⟩] ∧
    storeSSIDs [⟨"NetA", [10], [1]⟩] "NetA" 10 11 ≠ [⟨"NetA", [10], [1]⟩] := by
  norm_num [storeSSIDs, storeScan, appendEntry, newEntry]

/-! ### Entry-point theorems -/

/-- Claim C2 (counterexample): invoked with a wrong argument count
(argc = 1) and with both system calls succeeding, the process exits with
the fatal configuration code -4, but the memory-locking step has already
been performed before the check — the check-and-exit does NOT happen
before the real-time setup. -/
theorem main_argCheck_after_setup :
    (mainRun true true 1 []).2 = some (-4) ∧
    MainEvent.mlock ∈ (mainRun true true 1 []).1 := by decide

/-- Claim C2 (amended): a wrong argument count exits with the distinct
fatal configuration code -4, but only after memory locking, stack
prefaulting and CPU-affinity pinning have been performed (the check
lives in INIT_TASK, which main calls after the real-time setup); the
three fatal exit codes -4 (arguments), -2 (memory lock), -3 (affinity)
are pairwise distinct and non-zero. -/
theorem main_exit_codes (argc : Nat) (argv : List String) (h : argc ≠ 2) :
    mainRun true true argc argv
      = ([MainEvent.mlock, MainEvent.prefaultTheStack, MainEvent.setAffinity,
          MainEvent.argCheck], some (-4)) ∧
    (∀ aff, mainRun false aff argc argv = ([MainEvent.mlock], some (-2))) ∧
    mainRun true false argc argv
      = ([MainEvent.mlock, MainEvent.prefaultTheStack, MainEvent.setAffinity],
         some (-3)) ∧
    ((-4 : Int) ≠ -2 ∧ (-4 : Int) ≠ -3 ∧ (-2 : Int) ≠ -3 ∧
     (-4 : Int) ≠ 0 ∧ (-2 : Int) ≠ 0 ∧ (-3 : Int) ≠ 0) := by
  refine ⟨?_, fun aff => rfl, rfl, by norm_num⟩
  simp [mainRun, INIT_TASK, h]

/-- Witness for C2 (amended) at argc = 1 with no arguments. -/
theorem main_exit_codes_w :
    (1 : Nat) ≠ 2 ∧
    (mainRun true true 1 []
      = ([MainEvent.mlock, MainEvent.prefaultTheStack, MainEvent.setAffinity,
          MainEvent.argCheck], some (-4)) ∧
    (∀ aff, mainRun false aff 1 [] = ([MainEvent.mlock], some (-2))) ∧
    mainRun true false 1 []
      = ([MainEvent.mlock, MainEvent.prefaultTheStack, MainEvent.setAffinity],
         some (-3)) ∧
    ((-4 : Int) ≠ -2 ∧ (-4 : Int) ≠ -3 ∧ (-2 : Int) ≠ -3 ∧
     (-4 : Int) ≠ 0 ∧ (-2 : Int) ≠ 0 ∧ (-3 : Int) ≠ 0)) :=
  ⟨by decide, main_exit_codes 1 [] (by decide)⟩

/-- Claim C10: INIT_TASK exits with the fatal configuration code -4
exactly when the argument count is wrong; with exactly one argument that
`strtoul` converts to 0 (an unparseable unsigned integer), no error is
raised, the producer cycle time is set to zero nanoseconds, and with a
zero interval `updateInterval` leaves the producer's deadline timer
unchanged, so the deadline never advances between iterations. -/
theorem init_task_unparseable_argument (argv : List String) (s : String)
    (t : Timespec) (hs : argv.getD 1 "" = s) (h0 : strtoul0 s = 0)
    (ht : t.tv_nsec < NSEC_PER_SEC) :
    (∀ n, INIT_TASK n argv = Except.error (-4) ↔ n ≠ 2) ∧
    INIT_TASK 2 argv = Except.ok (0, initQueue) ∧
    updateInterval t 0 = t := by
  refine ⟨fun n => ?_, ?_, ?_⟩
  · by_cases hn : n = 2
    · subst hn; simp [INIT_TASK]
    · simp [INIT_TASK, hn]
  · unfold INIT_TASK
    rw [if_neg (by omega)]
    rw [hs, h0]
    norm_num
  · have hm : t.tv_nsec % 2 ^ 64 = t.tv_nsec := by
      apply Nat.mod_eq_of_lt
      simp only [NSEC_PER_SEC] at ht
      omega
    simp only [updateInterval, Nat.add_zero]
    rw [hm, normalizeTimer_of_lt t.tv_sec t.tv_nsec ht]

/-- Witness for C10 with the unparseable argument "abc" and the timer
(3 s, 5 ns). -/
theorem init_task_unparseable_argument_w :
    (["./scanner", "abc"].getD 1 "" = "abc") ∧ strtoul0 "abc" = 0 ∧
    (Timespec.mk 3 5).tv_nsec < NSEC_PER_SEC ∧
    ((∀ n, INIT_TASK n ["./scanner", "abc"] = Except.error (-4) ↔ n ≠ 2) ∧
     INIT_TASK 2 ["./scanner", "abc"] = Except.ok (0, initQueue) ∧
     updateInterval ⟨3, 5⟩ 0 = ⟨3, 5⟩) :=
  ⟨rfl, by decide, by decide,
   init_task_unparseable_argument ["./scanner", "abc"] "abc" ⟨3, 5⟩ rfl
     (by decide) (by decide)⟩

/-! ### Queue abstraction: a circular-buffer state represents a list -/

/-- The abstraction relation between a queue state and the list of
(ssid, timestamp) pairs it currently holds, oldest first: the indices
are in range, the `full` and `empty` flags discriminate the two
`head = tail` cases, the tail sits `l.length` slots past the head
(circularly), and slot `(head + i) % BUFFER_SIZE` holds the i-th pair. -/
def queueRepr (q : SSIDQueue) (l : List (String × ℚ)) : Prop :=
  q.head < BUFFER_SIZE ∧ q.tail < BUFFER_SIZE ∧ l.length ≤ BUFFER_SIZE ∧
  q.full = decide (l.length = BUFFER_SIZE) ∧
  q.empty = decide (l.length = 0) ∧
  q.tail = (q.head + l.length) % BUFFER_SIZE ∧
  ∀ i (hi : i < l.length),
    q.ssid_buffer ((q.head + i) % BUFFER_SIZE) = (l.get ⟨i, hi⟩).1 ∧
    q.timestamp_buffer ((q.head + i) % BUFFER_SIZE) = (l.get ⟨i, hi⟩).2

/-- A queue whose `full` flag is down holds fewer than BUFFER_SIZE
entries. -/
lemma length_lt_of_not_full {q : SSIDQueue} {l : List (String × ℚ)}
    (hR : queueRepr q l) (hf : q.full = false) : l.length < BUFFER_SIZE := by
  obtain ⟨-, -, h3, h4, -⟩ := hR
  rw [hf] at h4
  have := of_decide_eq_false h4.symm
  omega

/-- A queue whose `full` flag is up holds exactly BUFFER_SIZE entries. -/
lemma length_eq_of_full {q : SSIDQueue} {l : List (String × ℚ)}
    (hR : queueRepr q l) (hf : q.full = true) : l.length = BUFFER_SIZE := by
  obtain ⟨-, -, -, h4, -⟩ := hR
  rw [hf] at h4
  exact of_decide_eq_true h4.symm

/-- A queue whose `empty` flag is down holds at least one entry. -/
lemma length_ne_zero_of_not_empty {q : SSIDQueue} {l : List (String × ℚ)}
    (hR : queueRepr q l) (he : q.empty = false) : l.length ≠ 0 := by
  obtain ⟨-, -, -, -, h5, -⟩ := hR
  rw [he] at h5
  exact of_decide_eq_false h5.symm

/-- `queueAdd` on a non-full queue appends the new pair at the end of
the represented list; in particular no occupied slot is overwritten. -/
lemma queueAdd_repr {q : SSIDQueue} {l : List (String × ℚ)}
    (hR : queueRepr q l) (hf : q.full = false) (s : String) (ts : ℚ) :
    queueRepr (queueAdd s ts q) (l ++ [(s, ts)]) := by
  have hlen : l.length < BUFFER_SIZE := length_lt_of_not_full hR hf
  obtain ⟨h1, h2, h3, h4, h5, h6, h7⟩ := hR
  simp only [queueRepr, queueAdd, BUFFER_SIZE, List.length_append,
    List.length_singleton] at h1 h2 h3 h4 h5 h6 h7 hlen ⊢
  have key : ((if q.tail + 1 = 32 then 0 else q.tail + 1) = q.head) ↔
      (l.length + 1 = 32) := by
    constructor <;> intro hx
    · by_cases hc : q.tail + 1 = 32 <;> simp [hc] at hx <;> omega
    · by_cases hc : q.tail + 1 = 32
      · simp [hc]; omega
      · simp [hc]; omega
  refine ⟨h1, ?_, by omega, ?_, by simp, ?_, ?_⟩
  · split <;> omega
  · by_cases h32 : l.length + 1 = 32
    · rw [if_pos (key.mpr h32)]
      simp [h32]
    · rw [if_neg (fun hc => h32 (key.mp hc))]
      rw [hf]
      simp
      omega
  · split <;> omega
  · intro i hi
    by_cases hilt : i < l.length
    · have hne : (q.head + i) % 32 ≠ q.tail := by
        rw [h6]; omega
      rw [Function.update_noteq hne, Function.update_noteq hne]
      have := h7 i hilt
      simp only [List.get_eq_getElem] at this ⊢
      rw [List.getElem_append_left hilt]
      exact this
    · have hie : i = l.length := by omega
      subst hie
      have hpt : (q.head + l.length) % 32 = q.tail := h6.symm
      rw [hpt, Function.update_same, Function.update_same]
      simp only [List.get_eq_getElem]
      constructor <;> simp [List.getElem_concat_length]

/-- `queuePop` on a non-empty queue returns the head of the represented
list and afterwards represents its tail. -/
lemma queuePop_repr {q : SSIDQueue} {l : List (String × ℚ)}
    (hR : queueRepr q l) (he : q.empty = false) :
    ∃ x l2, l = x :: l2 ∧ (queuePop q).1 = x ∧ queueRepr (queuePop q).2 l2 := by
  have hne : l.length ≠ 0 := length_ne_zero_of_not_empty hR he
  obtain ⟨h1, h2, h3, h4, h5, h6, h7⟩ := hR
  cases l with
  | nil => simp at hne
  | cons x l2 => ?_
  refine ⟨x, l2, rfl, ?_, ?_⟩
  · have h0 := h7 0 (by simp)
    have hh : (q.head + 0) % BUFFER_SIZE = q.head := by
      simp only [BUFFER_SIZE] at h1 ⊢
      omega
    rw [hh] at h0
    simp only [List.get_eq_getElem, List.getElem_cons_zero] at h0
    simp only [queuePop]
    exact Prod.ext h0.1 h0.2
  · simp only [queueRepr, queuePop, BUFFER_SIZE, List.length_cons]
      at h1 h2 h3 h4 h5 h6 h7 ⊢
    have key : ((if q.head + 1 = 32 then 0 else q.head + 1) = q.tail) ↔
        (l2.length = 0) := by
      constructor <;> intro hx
      · by_cases hc : q.head + 1 = 32 <;> simp [hc] at hx <;> omega
      · by_cases hc : q.head + 1 = 32
        · simp [hc]; omega
        · simp [hc]; omega
    refine ⟨?_, h2, by omega, by simp; omega, ?_, ?_, ?_⟩
    · split <;> omega
    · by_cases h0 : l2.length = 0
      · rw [if_pos (key.mpr h0)]
        simp [h0]
      · rw [if_neg (fun hc => h0 (key.mp hc))]
        rw [he]
        simp
        exact fun hL => h0 (by simp [hL])
    · split <;> omega
    · intro i hi
      have hidx : ((if q.head + 1 = 32 then 0 else q.head + 1) + i) % 32
          = (q.head + (i + 1)) % 32 := by
        split <;> omega
      rw [hidx]
      have := h7 (i + 1) (by simp; omega)
      simp only [List.get_eq_getElem, List.getElem_cons_succ] at this ⊢
      exact this

/-! ### FIFO delivery over operation traces (claim C3) -/

/-- An operation on the shared queue: an enqueue by the producer or a
dequeue by the consumer. -/
inductive QueueOp where
  | add : String → ℚ → QueueOp
  | pop : QueueOp

/-- Run a sequence of queue operations; the result is the final queue
state and the list of pairs the dequeues returned, in order. -/
def runOps : List QueueOp → SSIDQueue → SSIDQueue × List (String × ℚ)
  | [], q => (q, [])
  | QueueOp.add s t :: ops, q => runOps ops (queueAdd s t q)
  | QueueOp.pop :: ops, q =>
    let r := queuePop q
    let rest := runOps ops r.2
    (rest.1, r.1 :: rest.2)

/-- The operation sequence respects the blocking discipline of the two
tasks: every enqueue happens only when the queue is not full and every
dequeue only when it is not empty (in the program this is enforced by
the condition-variable waits of READ_TASK and STORE_TASK). -/
def validOps : List QueueOp → SSIDQueue → Prop
  | [], _ => True
  | QueueOp.add s t :: ops, q => q.full = false ∧ validOps ops (queueAdd s t q)
  | QueueOp.pop :: ops, q => q.empty = false ∧ validOps ops (queuePop q).2

/-- The pairs a sequence of operations enqueues, in order. -/
def addsOf : List QueueOp → List (String × ℚ)
  | [] => []
  | QueueOp.add s t :: ops => (s, t) :: addsOf ops
  | QueueOp.pop :: ops => addsOf ops

/-- Claim C3: for every sequence of queue operations in which each
enqueue happens only when the queue is not full and each dequeue only
when it is not empty, the dequeued pairs followed by the pairs still in
the queue are exactly the initial contents followed by the enqueued
pairs, in order — dequeues return the enqueued (ssid, timestamp) pairs
in enqueue order with nothing reordered, duplicated or lost. -/
theorem queue_fifo (ops : List QueueOp) (q : SSIDQueue)
    (l : List (String × ℚ)) (hR : queueRepr q l) (hV : validOps ops q) :
    ∃ l2, queueRepr (runOps ops q).1 l2 ∧
          (runOps ops q).2 ++ l2 = l ++ addsOf ops := by
  induction ops generalizing q l with
  | nil => exact ⟨l, hR, by simp [runOps, addsOf]⟩
  | cons op ops ih =>
    cases op with
    | add s t =>
      obtain ⟨hf, hv⟩ := hV
      obtain ⟨l2, hrep, heq⟩ := ih (queueAdd s t q) (l ++ [(s, t)])
        (queueAdd_repr ⟨hR.1, hR.2.1, hR.2.2.1, hR.2.2.2.1, hR.2.2.2.2.1,
          hR.2.2.2.2.2.1, hR.2.2.2.2.2.2⟩ hf s t) hv
      refine ⟨l2, hrep, ?_⟩
      simp only [runOps, addsOf]
      rw [heq]
      simp
    | pop =>
      obtain ⟨he, hv⟩ := hV
      obtain ⟨x, ltl, hl, hx, hrep⟩ := queuePop_repr hR he
      obtain ⟨l2, hrep2, heq⟩ := ih (queuePop q).2 ltl hrep hv
      refine ⟨l2, hrep2, ?_⟩
      simp only [runOps, addsOf]
      rw [hx, hl]
      simpa using heq

/-- The queue state after INIT_TASK represents the empty list. -/
lemma initQueue_repr : queueRepr initQueue [] := by
  refine ⟨by simp [initQueue, BUFFER_SIZE], by simp [initQueue, BUFFER_SIZE],
    by simp, rfl, rfl, by simp [initQueue], ?_⟩
  intro i hi
  simp at hi

/-- A concrete operation trace for the FIFO witness. -/
def fifoOps : List QueueOp :=
  [QueueOp.add "NetA" 1, QueueOp.add "NetB" 2, QueueOp.pop, QueueOp.pop]

/-- Witness for C3 on a concrete trace from the initial queue. -/
theorem queue_fifo_w :
    queueRepr initQueue [] ∧ validOps fifoOps initQueue ∧
    (∃ l2, queueRepr (runOps fifoOps initQueue).1 l2 ∧
           (runOps fifoOps initQueue).2 ++ l2 = [] ++ addsOf fifoOps) :=
  ⟨initQueue_repr, ⟨rfl, rfl, rfl, rfl, trivial⟩,
   queue_fifo fifoOps initQueue [] initQueue_repr ⟨rfl, rfl, rfl, rfl, trivial⟩⟩

/-! ### Capacity and burst behaviour of the production cycle (claim C4) -/

/-- Claim C4: starting from any queue holding `l`, one production cycle
over a burst of scanner lines leaves the queue holding `l` followed by
exactly the first `BUFFER_SIZE - l.length` valid (non-sentinel) lines of
the burst — so no enqueue ever overwrites an occupied slot, the queue
never holds more than its fixed capacity of 32 entries, and when the
valid lines exceed the free capacity exactly (capacity − occupied) of
them are enqueued and the rest silently dropped. -/
theorem readSSID_burst (lines : List (String × ℚ)) (q : SSIDQueue)
    (l : List (String × ℚ)) (hR : queueRepr q l) :
    ∃ l2, queueRepr (readSSIDLoop lines q) l2 ∧
      l2 = l ++ (lines.filter (fun p => validLine p.1)).take
        (BUFFER_SIZE - l.length) ∧
      l2.length ≤ BUFFER_SIZE := by
  induction lines generalizing q l with
  | nil => exact ⟨l, hR, by simp, hR.2.2.1⟩
  | cons p rest ih =>
    obtain ⟨s, t⟩ := p
    by_cases hv : validLine s
    · cases hfc : q.full with
      | true =>
        have hlen : l.length = BUFFER_SIZE := length_eq_of_full hR hfc
        have hstep : readSSIDLoop ((s, t) :: rest) q = readSSIDLoop rest q := by
          simp [readSSIDLoop, hfc]
        rw [hstep]
        obtain ⟨l2, hq, he, hle⟩ := ih q l hR
        refine ⟨l2, hq, ?_, hle⟩
        rw [he, hlen]
        simp
      | false =>
        have hstep : readSSIDLoop ((s, t) :: rest) q
            = readSSIDLoop rest (queueAdd s t q) := by
          simp [readSSIDLoop, hfc, hv]
        rw [hstep]
        have hlt : l.length < BUFFER_SIZE := length_lt_of_not_full hR hfc
        obtain ⟨l2, hq, he, hle⟩ := ih (queueAdd s t q) (l ++ [(s, t)])
          (queueAdd_repr hR hfc s t)
        refine ⟨l2, hq, ?_, hle⟩
        rw [he]
        rw [List.filter_cons_of_pos (by simpa using hv)]
        have htake : BUFFER_SIZE - (l ++ [(s, t)]).length
            = BUFFER_SIZE - l.length - 1 := by
          simp
          omega
        rw [htake]
        have : BUFFER_SIZE - l.length = (BUFFER_SIZE - l.length - 1) + 1 := by
          simp only [BUFFER_SIZE] at hlt ⊢
          omega
        rw [this, List.take_succ_cons]
        simp
    · have hstep : readSSIDLoop ((s, t) :: rest) q = readSSIDLoop rest q := by
        cases hfc : q.full <;> simp [readSSIDLoop, hfc, hv]
      rw [hstep]
      obtain ⟨l2, hq, he, hle⟩ := ih q l hR
      refine ⟨l2, hq, ?_, hle⟩
      rw [he, List.filter_cons_of_neg (by simpa using hv)]

/-- Witness for C4: a cycle over one sentinel line and two valid lines
from the initial queue. -/
theorem readSSID_burst_w :
    queueRepr initQueue [] ∧
    (∃ l2,
      queueRepr (readSSIDLoop [("x00junk", 1), ("NetA", 2), ("NetB", 3)]
        initQueue) l2 ∧
      l2 = ([] : List (String × ℚ)) ++ ([("x00junk", (1 : ℚ)), ("NetA", 2),
        ("NetB", 3)].filter (fun p => validLine p.1)).take
        (BUFFER_SIZE - List.length ([] : List (String × ℚ))) ∧
      l2.length ≤ BUFFER_SIZE) :=
  ⟨initQueue_repr,
   readSSID_burst [("x00junk", 1), ("NetA", 2), ("NetB", 3)] initQueue []
     initQueue_repr⟩

/-! ### Per-line behaviour of the production cycle (claim C8) -/

/-- Claim C8: for a line met by the production loop, if it begins with
the sentinel prefix "x00" it is skipped and never enqueued; otherwise it
is enqueued together with its current timestamp exactly when the queue
is not full at that moment (and skipped when the queue is full). -/
theorem readSSID_line_step (q : SSIDQueue) (l : List (String × ℚ))
    (s : String) (t : ℚ) (rest : List (String × ℚ)) (hR : queueRepr q l) :
    (s.data.take 3 = ['x', '0', '0'] →
      readSSIDLoop ((s, t) :: rest) q = readSSIDLoop rest q) ∧
    (q.full = true →
      readSSIDLoop ((s, t) :: rest) q = readSSIDLoop rest q) ∧
    (s.data.take 3 ≠ ['x', '0', '0'] → q.full = false →
      readSSIDLoop ((s, t) :: rest) q = readSSIDLoop rest (queueAdd s t q) ∧
      queueRepr (queueAdd s t q) (l ++ [(s, t)])) := by
  refine ⟨?_, ?_, ?_⟩
  · intro hsent
    simp [readSSIDLoop, validLine, hsent]
  · intro hfull
    simp [readSSIDLoop, hfull]
  · intro hsent hfull
    refine ⟨by simp [readSSIDLoop, validLine, hsent, hfull], ?_⟩
    exact queueAdd_repr hR hfull s t

/-- Witness for C8 with the line "MyNet" at the initial queue. -/
theorem readSSID_line_step_w :
    queueRepr initQueue [] ∧
    (("MyNet".data.take 3 = ['x', '0', '0'] →
      readSSIDLoop [("MyNet", 7)] initQueue = readSSIDLoop [] initQueue) ∧
    (initQueue.full = true →
      readSSIDLoop [("MyNet", 7)] initQueue = readSSIDLoop [] initQueue) ∧
    ("MyNet".data.take 3 ≠ ['x', '0', '0'] → initQueue.full = false →
      readSSIDLoop [("MyNet", 7)] initQueue
        = readSSIDLoop [] (queueAdd "MyNet" 7 initQueue) ∧
      queueRepr (queueAdd "MyNet" 7 initQueue) ([] ++ [("MyNet", 7)]))) :=
  ⟨initQueue_repr, readSSID_line_step initQueue [] "MyNet" 7 [] initQueue_repr⟩

/-! ### History invariants of the aggregation step (claims C5, C6) -/

/-- The parallel-array invariant of the history: every entry has as many
latencies as timestamps (in the C code both arrays share the single
length counter `num_timestamps[i]`). -/
def lenInv (hist : List SSIDEntry) : Prop :=
  ∀ e ∈ hist, e.timestamps.length = e.latencies.length

/-- A successful scan-and-append preserves the parallel-array
invariant. -/
lemma storeScan_lenInv {hist h2 : List SSIDEntry} {s : String} {ts now : ℚ}
    (hscan : storeScan hist s ts now = some h2) (hI : lenInv hist) :
    lenInv h2 := by
  induction hist generalizing h2 with
  | nil => simp [storeScan] at hscan
  | cons e rest ih =>
    simp only [storeScan] at hscan
    split at hscan
    · cases hscan
      intro e2 he2
      rcases List.mem_cons.mp he2 with he2 | he2
      · subst he2
        have := hI e (List.mem_cons_self e rest)
        simp [appendEntry, this]
      · exact hI e2 (List.mem_cons_of_mem e he2)
    · rcases hm : storeScan rest s ts now with _ | rest2 <;> rw [hm] at hscan
      · cases hscan
      · cases hscan
        have hrest : lenInv rest2 :=
          ih hm (fun x hx => hI x (List.mem_cons_of_mem e hx))
        intro e2 he2
        rcases List.mem_cons.mp he2 with he2 | he2
        · exact he2 ▸ hI e (List.mem_cons_self e rest)
        · exact hrest e2 he2

/-- Claim C5: the aggregation step preserves the invariant that every
identifier's timestamp sequence and latency sequence have equal length;
the branch that appends a timestamp appends exactly one latency with it,
and a newly created entry starts with one timestamp and one latency. -/
theorem storeSSIDs_parallel_lengths (hist : List SSIDEntry) (s : String)
    (ts now : ℚ) (hI : lenInv hist) :
    lenInv (storeSSIDs hist s ts now) ∧
    (∀ e : SSIDEntry,
      (appendEntry e ts now).timestamps.length = e.timestamps.length + 1 ∧
      (appendEntry e ts now).latencies.length = e.latencies.length + 1) ∧
    (newEntry s ts now).timestamps.length = 1 ∧
    (newEntry s ts now).latencies.length = 1 := by
  refine ⟨?_, fun e => by simp [appendEntry], rfl, rfl⟩
  unfold storeSSIDs
  rcases hm : storeScan hist s ts now with _ | h2
  · intro e2 he2
    rcases List.mem_append.mp he2 with he2 | he2
    · exact hI e2 he2
    · rcases List.mem_singleton.mp he2 with rfl
      rfl
  · exact storeScan_lenInv hm hI

/-- Witness for C5 on a one-entry history. -/
theorem storeSSIDs_parallel_lengths_w :
    lenInv [⟨"NetA", [1], [2]⟩] ∧
    (lenInv (storeSSIDs [⟨"NetA", [1], [2]⟩] "NetB" 3 4) ∧
    (∀ e : SSIDEntry,
      (appendEntry e 3 4).timestamps.length = e.timestamps.length + 1 ∧
      (appendEntry e 3 4).latencies.length = e.latencies.length + 1) ∧
    (newEntry "NetB" 3 4).timestamps.length = 1 ∧
    (newEntry "NetB" 3 4).latencies.length = 1) :=
  ⟨by intro e he; rcases List.mem_singleton.mp he with rfl; rfl,
   storeSSIDs_parallel_lengths [⟨"NetA", [1], [2]⟩] "NetB" 3 4
     (by intro e he; rcases List.mem_singleton.mp he with rfl; rfl)⟩

/-- Every latency present after a successful scan-and-append was either
already in the history or is the newly computed `now - ts`. -/
lemma storeScan_latencies {hist h2 : List SSIDEntry} {s : String} {ts now : ℚ}
    (hscan : storeScan hist s ts now = some h2) :
    ∀ e2 ∈ h2, ∀ lat ∈ e2.latencies,
      (∃ e ∈ hist, lat ∈ e.latencies) ∨ lat = now - ts := by
  induction hist generalizing h2 with
  | nil => simp [storeScan] at hscan
  | cons e rest ih =>
    simp only [storeScan] at hscan
    split at hscan
    · cases hscan
      intro e2 he2 lat hlat
      rcases List.mem_cons.mp he2 with he2 | he2
      · subst he2
        simp only [appendEntry] at hlat
        rcases List.mem_append.mp hlat with hlat | hlat
        · exact Or.inl ⟨e, List.mem_cons_self e rest, hlat⟩
        · exact Or.inr (List.mem_singleton.mp hlat)
      · exact Or.inl ⟨e2, List.mem_cons_of_mem e he2, hlat⟩
    · rcases hm : storeScan rest s ts now with _ | rest2 <;> rw [hm] at hscan
      · cases hscan
      · cases hscan
        intro e2 he2 lat hlat
        rcases List.mem_cons.mp he2 with he2 | he2
        · subst he2
          exact Or.inl ⟨e2, List.mem_cons_self e2 rest, hlat⟩
        · rcases ih hm e2 he2 lat hlat with ⟨e3, he3, hl3⟩ | hnew
          · exact Or.inl ⟨e3, List.mem_cons_of_mem e he3, hl3⟩
          · exact Or.inr hnew

/-- Claim C6: every latency present after an aggregation step is either
a latency the history already held, or the newly recorded one, which
equals the aggregation-time clock reading minus the capture timestamp
and is non-negative whenever the clock is monotonic (aggregation time at
least the capture time). -/
theorem storeSSIDs_latency (hist : List SSIDEntry) (s : String) (ts now : ℚ)
    (hmono : ts ≤ now) :
    ∀ e2 ∈ storeSSIDs hist s ts now, ∀ lat ∈ e2.latencies,
      (∃ e ∈ hist, lat ∈ e.latencies) ∨ (lat = now - ts ∧ 0 ≤ lat) := by
  intro e2 he2 lat hlat
  unfold storeSSIDs at he2
  rcases hm : storeScan hist s ts now with _ | h2 <;> rw [hm] at he2
  · rcases List.mem_append.mp he2 with he2 | he2
    · exact Or.inl ⟨e2, he2, hlat⟩
    · rcases List.mem_singleton.mp he2 with rfl
      rcases List.mem_singleton.mp hlat with rfl
      exact Or.inr ⟨rfl, by linarith⟩
  · rcases storeScan_latencies hm e2 he2 lat hlat with hold | hnew
    · exact Or.inl hold
    · exact Or.inr ⟨hnew, by rw [hnew]; linarith⟩

/-- Witness for C6 with capture time 1 and aggregation time 2 on the
empty history. -/
theorem storeSSIDs_latency_w :
    (1 : ℚ) ≤ 2 ∧
    (∀ e2 ∈ storeSSIDs [] "NetA" 1 2, ∀ lat ∈ e2.latencies,
      (∃ e ∈ ([] : List SSIDEntry), lat ∈ e.latencies) ∨
      (lat = 2 - 1 ∧ 0 ≤ lat)) :=
  ⟨by norm_num, storeSSIDs_latency [] "NetA" 1 2 (by norm_num)⟩

end RtWifiScanner
